import Mathlib

/-!
Shallow embedding of the `TwitterVerification` Solidity contract and of the
status-checking logic of its React client, for checking the repository's
specification claims.

Modelling conventions:
- `address` and `bytes32` values are `Nat` (0 is the zero address / zero id).
- `bytes` values are `List Nat`, one `Nat` (< 256) per byte.
- The UMA Optimistic Oracle V3 is an opaque external collaborator: its return
  values (`assertionId` from `assertTruthWithDefaults`, the boolean from its
  `settleAndGetAssertionResult`, the `Assertion` record from `getAssertion`)
  enter the embedded functions as parameters.
- A Solidity `require` failure reverts the whole transaction; an embedded
  state-mutating call returns `Except String (state × result × events)`, and
  an `.error` outcome means the durable state is the pre-call state
  (see `runSettle`).
- `block.timestamp` and `msg.sender` are explicit parameters.
-/

/-- UTF-8 encoding of one character, as the list of its byte values.
Mirrors how a Solidity `string` stores its contents (UTF-8 bytes). -/
def utf8Bytes (c : Char) : List Nat :=
  let n := c.toNat
  if n < 0x80 then [n]
  else if n < 0x800 then [0xC0 + n / 64, 0x80 + n % 64]
  else if n < 0x10000 then [0xE0 + n / 4096, 0x80 + n / 64 % 64, 0x80 + n % 64]
  else [0xF0 + n / 262144, 0x80 + n / 4096 % 64, 0x80 + n / 64 % 64, 0x80 + n % 64]

/-- The bytes of a string: `bytes(s)` in Solidity. -/
def stringBytes (s : String) : List Nat :=
  s.data.flatMap utf8Bytes

/-- Big-endian 32-byte encoding of a `uint256`: what `abi.encodePacked`
produces for a `uint256` argument such as `block.timestamp`. -/
def be32 (n : Nat) : List Nat :=
  (List.range 32).map (fun i => n / 256 ^ (31 - i) % 256)

/-- The `Claim` struct stored by the registry contract. -/
structure Claim where
  assertedClaim : List Nat
  claimer : Nat
  twitterHandle : String
  tweetText : String
  assertionId : Nat
  isResolved : Bool
  isRewarded : Bool
deriving Repr, DecidableEq

/-- The all-zero `Claim`, what a Solidity mapping returns for an unset key. -/
def zeroClaim : Claim :=
  { assertedClaim := [], claimer := 0, twitterHandle := "", tweetText := "",
    assertionId := 0, isResolved := false, isRewarded := false }

/-- The oracle's `Assertion` record, as consumed by `canBeSettled` and
`getAssertion` (field list from `IOptimisticOracleV3`). -/
structure OracleAssertion where
  validated : Bool
  resolved : Bool
  settlementResolution : Bool
  asserter : Nat
  challenger : Nat
  settlementTimestamp : Nat
  expirationTime : Nat
  settled : Bool
deriving Repr, DecidableEq

/-- The registry's emitted events. -/
inductive Event where
  | ClaimSubmitted (assertionId claimer : Nat) (twitterHandle tweetText : String)
  | ClaimResolved (assertionId : Nat) (truthful : Bool)
  | RewardPaid (assertionId claimer amount : Nat)
deriving Repr, DecidableEq

/-- Durable state of the registry contract: the `claims` mapping (keyed by
assertion id, modelled as an association list) and the contract's own ether
balance in wei. -/
structure RegistryState where
  claims : List (Nat × Claim)
  balance : Nat
deriving Repr, DecidableEq

/-- The constant `REWARD_AMOUNT = 0.01 ether`, in wei. -/
def REWARD_AMOUNT : Nat := 10 ^ 16

/-- Reading `claims[id]` when the key may be unset: `none` when no record was
ever stored there. -/
def lookupClaim (s : RegistryState) (id : Nat) : Option Claim :=
  (s.claims.find? (fun p => p.1 == id)).map (·.2)

/-- Reading `claims[id]` with Solidity mapping semantics: an unset key reads
as the all-zero struct. -/
def readClaim (s : RegistryState) (id : Nat) : Claim :=
  (lookupClaim s id).getD zeroClaim

/-- The assignment `claims[id] = c`: unconditional overwrite of the slot. -/
def storeClaim (s : RegistryState) (id : Nat) (c : Claim) : RegistryState :=
  { s with claims := (id, c) :: s.claims.filter (fun p => p.1 != id) }

/-- The byte string built by `submitClaim`:
`abi.encodePacked("Twitter user @", twitterHandle, " posted a tweet with the
exact text: ...", tweetText, "... as of timestamp ", block.timestamp)`.
String arguments contribute their UTF-8 bytes; the `uint256` timestamp
contributes its 32-byte big-endian encoding. -/
def mkAssertedClaim (twitterHandle tweetText : String) (blockTimestamp : Nat) :
    List Nat :=
  stringBytes "Twitter user @" ++ stringBytes twitterHandle ++
    stringBytes " posted a tweet with the exact text: \x27" ++ stringBytes tweetText ++
    stringBytes "\x27 as of timestamp " ++ be32 blockTimestamp

/-- The registry entry point `submitClaim(twitterHandle, tweetText)`. Here `sender` is `msg.sender`,
`blockTimestamp` is `block.timestamp`, and `newAssertionId` is the opaque id
returned by the oracle's `assertTruthWithDefaults`. Returns the new state,
the returned assertion id, and the emitted events. -/
def submitClaim (s : RegistryState) (sender blockTimestamp : Nat)
    (twitterHandle tweetText : String) (newAssertionId : Nat) :
    RegistryState × Nat × List Event :=
  let assertedClaim := mkAssertedClaim twitterHandle tweetText blockTimestamp
  let c : Claim :=
    { assertedClaim := assertedClaim, claimer := sender,
      twitterHandle := twitterHandle, tweetText := tweetText,
      assertionId := newAssertionId, isResolved := false, isRewarded := false }
  (storeClaim s newAssertionId c, newAssertionId,
    [Event.ClaimSubmitted newAssertionId sender twitterHandle tweetText])

/-- The registry entry point `settleAndGetAssertionResult(assertionId)`. Here `oracleResult` is the boolean
returned by the oracle's own settle-and-read entry point (the oracle call is
reached only after the existence `require`). `.error` means the transaction
reverts with that `require` message. -/
def settleAndGetAssertionResult (s : RegistryState) (id : Nat)
    (oracleResult : Bool) : Except String (RegistryState × Bool × List Event) :=
  let c := readClaim s id
  if c.claimer = 0 then
    Except.error "Claim does not exist"
  else
    let cResolved := { c with isResolved := true }
    let sResolved := storeClaim s id cResolved
    if oracleResult && !cResolved.isRewarded then
      if sResolved.balance < REWARD_AMOUNT then
        Except.error "Insufficient contract balance"
      else
        let cRewarded := { cResolved with isRewarded := true }
        let sFinal :=
          { storeClaim sResolved id cRewarded with
            balance := sResolved.balance - REWARD_AMOUNT }
        Except.ok (sFinal, oracleResult,
          [Event.ClaimResolved id oracleResult,
           Event.RewardPaid id cRewarded.claimer REWARD_AMOUNT])
    else
      Except.ok (sResolved, oracleResult, [Event.ClaimResolved id oracleResult])

/-- The durable registry state after a settlement transaction: on a revert
(`.error`) the pre-call state persists unchanged. -/
def runSettle (s : RegistryState) (id : Nat) (oracleResult : Bool) :
    RegistryState :=
  match settleAndGetAssertionResult s id oracleResult with
  | Except.ok (sNext, _, _) => sNext
  | Except.error _ => s

/-- The view `getClaimDetails(assertionId)`: read-only projection of the stored claim. -/
def getClaimDetails (s : RegistryState) (id : Nat) :
    Nat × String × String × Bool × Bool :=
  let c := readClaim s id
  (c.claimer, c.twitterHandle, c.tweetText, c.isResolved, c.isRewarded)

/-- The view `isClaimVerified(assertionId)`. -/
def isClaimVerified (s : RegistryState) (id : Nat) : Bool :=
  (readClaim s id).isResolved && (readClaim s id).isRewarded

/-- The view `canBeSettled(assertionId)`. Here `assertion` is the record the oracle's
`getAssertion(assertionId)` returns and `blockTimestamp` is `block.timestamp`. -/
def canBeSettled (s : RegistryState) (id : Nat) (assertion : OracleAssertion)
    (blockTimestamp : Nat) : Bool :=
  let c := readClaim s id
  if c.claimer = 0 then false
  else if c.isResolved then false
  else !assertion.settled && decide (assertion.expirationTime ≤ blockTimestamp)

/-- What the client stores in `claimStatus` after a successful
`getClaimDetails` read (fields as in `App.js`). -/
structure ClaimDetailsView where
  claimer : Nat
  twitterHandle : String
  tweetText : String
  resolved : Bool
  rewarded : Bool
deriving Repr, DecidableEq

/-- The client-side React state touched by `checkClaimStatus`:
`claimStatus`, `assertionDetails`, `canSettle` and `error` (the empty string
means no error is displayed). -/
structure ClientState where
  claimStatus : Option ClaimDetailsView
  assertionDetails : Option OracleAssertion
  canSettle : Bool
  error : String
deriving Repr, DecidableEq

/-- The client's `checkClaimStatus` handler. The three `Except` arguments are
the outcomes of its three awaited reads, in source order: the registry's
`getClaimDetails`, the oracle-backed `getAssertion`, and `canBeSettled`.
It first clears the error message; a failure of the primary read lands in
the outer catch and sets the error text; a failure of either secondary read
is caught locally and forces `canSettle := true`. -/
def checkClaimStatus (st : ClientState)
    (details : Except String ClaimDetailsView)
    (assertion : Except String OracleAssertion)
    (settleable : Except String Bool) : ClientState :=
  let st0 := { st with error := "" }
  match details with
  | Except.error msg => { st0 with error := "Error checking claim: " ++ msg }
  | Except.ok d =>
    let st1 := { st0 with claimStatus := some d }
    match assertion with
    | Except.error _ => { st1 with canSettle := true }
    | Except.ok a =>
      let st2 := { st1 with assertionDetails := some a }
      match settleable with
      | Except.error _ => { st2 with canSettle := true }
      | Except.ok b => { st2 with canSettle := b }

/-- ASCII decimal digits of a number, fuel-indexed so that it is structural. -/
def decimalDigitsAux : Nat → Nat → List Nat
  | 0, _ => []
  | fuel + 1, n =>
    if n < 10 then [48 + n]
    else decimalDigitsAux fuel (n / 10) ++ [48 + n % 10]

/-- ASCII decimal rendering of a number, e.g. `decimalBytes 17 = [49, 55]`. -/
def decimalBytes (n : Nat) : List Nat :=
  decimalDigitsAux (n + 1) n

/-- Modelled from the spec's words for comparison with `mkAssertedClaim`
(refinement check for the claim about the assertion sentence): the byte
string of the sentence with the submission timestamp rendered as readable
decimal text inside it. -/
def specReadableAssertedClaim (twitterHandle tweetText : String)
    (blockTimestamp : Nat) : List Nat :=
  stringBytes "Twitter user @" ++ stringBytes twitterHandle ++
    stringBytes " posted a tweet with the exact text: \x27" ++ stringBytes tweetText ++
    stringBytes "\x27 as of timestamp " ++ decimalBytes blockTimestamp

/-! ### Basic lemmas about the claims mapping -/

theorem balance_storeClaim (s : RegistryState) (id : Nat) (c : Claim) :
    (storeClaim s id c).balance = s.balance := rfl

theorem lookupClaim_setBalance (s : RegistryState) (b : Nat) (id : Nat) :
    lookupClaim { s with balance := b } id = lookupClaim s id := rfl

theorem find?_filter_ne (l : List (Nat × Claim)) (id k : Nat) (hk : k ≠ id) :
    (l.filter (fun p => p.1 != id)).find? (fun p => p.1 == k) =
      l.find? (fun p => p.1 == k) := by
  induction l with
  | nil => simp
  | cons p l ih =>
    by_cases hp : p.1 = id
    · have h1 : (p.1 != id) = false := by simp [hp]
      have h2 : (p.1 == k) = false := by
        simp only [beq_eq_false_iff_ne, ne_eq, hp]
        exact fun h => hk h.symm
      simp [List.filter_cons, h1, List.find?_cons, h2, ih]
    · have h1 : (p.1 != id) = true := by simp [hp]
      by_cases hpk : p.1 = k
      · have h2 : (p.1 == k) = true := by simp [hpk]
        simp [List.filter_cons, h1, List.find?_cons, h2]
      · have h2 : (p.1 == k) = false := by simp [hpk]
        simp [List.filter_cons, h1, List.find?_cons, h2, ih]

theorem lookupClaim_storeClaim_self (s : RegistryState) (id : Nat) (c : Claim) :
    lookupClaim (storeClaim s id c) id = some c := by
  simp [lookupClaim, storeClaim, List.find?_cons]

theorem lookupClaim_storeClaim_ne (s : RegistryState) (id k : Nat) (c : Claim)
    (hk : k ≠ id) : lookupClaim (storeClaim s id c) k = lookupClaim s k := by
  have h2 : ((id, c).1 == k) = false := by
    simp only [beq_eq_false_iff_ne, ne_eq]
    exact fun h => hk h.symm
  simp [lookupClaim, storeClaim, List.find?_cons, h2, find?_filter_ne _ _ _ hk]

/-! ### Fixtures for concrete witnesses -/

/-- A concrete stored claim used by the witnesses. -/
def wClaim : Claim :=
  { assertedClaim := [], claimer := 7, twitterHandle := "h", tweetText := "t",
    assertionId := 1, isResolved := false, isRewarded := false }

/-- A funded registry holding `wClaim` at id 1. -/
def wFunded : RegistryState := { claims := [(1, wClaim)], balance := REWARD_AMOUNT }

/-- An unfunded registry holding `wClaim` at id 1. -/
def wUnfunded : RegistryState := { claims := [(1, wClaim)], balance := 0 }

/-- An empty registry. -/
def wEmpty : RegistryState := { claims := [], balance := 5 }

/-! ### Claim theorems -/

/-- Claim C5: for an assertion id whose stored claimer is the zero value,
`settleAndGetAssertionResult` rejects the whole call with the
"Claim does not exist" error, whatever the oracle would have answered, and
the durable registry state is unchanged. -/
theorem settle_nonexistent_claim_fails (s : RegistryState) (id : Nat)
    (h : (readClaim s id).claimer = 0) (oracleResult : Bool) :
    settleAndGetAssertionResult s id oracleResult =
      Except.error "Claim does not exist" ∧
    runSettle s id oracleResult = s := by
  constructor
  · simp [settleAndGetAssertionResult, h]
  · simp [runSettle, settleAndGetAssertionResult, h]

theorem settle_nonexistent_claim_fails_witness :
    (readClaim wEmpty 9).claimer = 0 ∧
    (settleAndGetAssertionResult wEmpty 9 true =
       Except.error "Claim does not exist" ∧
     runSettle wEmpty 9 true = wEmpty) :=
  ⟨rfl, settle_nonexistent_claim_fails wEmpty 9 rfl true⟩

/-- Claim C3: settling an existing, not-yet-rewarded claim with a true oracle
result while the registry balance is below `REWARD_AMOUNT` reverts the whole
call with the "Insufficient contract balance" error, so the durable registry
state (in particular the stored `isResolved` flag) is unchanged. -/
theorem settle_insufficient_balance_reverts (s : RegistryState) (id : Nat)
    (c : Claim) (hc : lookupClaim s id = some c) (hcl : c.claimer ≠ 0)
    (hnr : c.isRewarded = false) (hbal : s.balance < REWARD_AMOUNT) :
    settleAndGetAssertionResult s id true =
      Except.error "Insufficient contract balance" ∧
    runSettle s id true = s := by
  have hread : readClaim s id = c := by simp [readClaim, hc]
  constructor
  · simp [settleAndGetAssertionResult, hread, hcl, hnr, storeClaim, hbal]
  · simp [runSettle, settleAndGetAssertionResult, hread, hcl, hnr, storeClaim,
      hbal]

theorem settle_insufficient_balance_reverts_witness :
    (lookupClaim wUnfunded 1 = some wClaim ∧ wClaim.claimer ≠ 0 ∧
     wClaim.isRewarded = false ∧ wUnfunded.balance < REWARD_AMOUNT) ∧
    (settleAndGetAssertionResult wUnfunded 1 true =
       Except.error "Insufficient contract balance" ∧
     runSettle wUnfunded 1 true = wUnfunded) :=
  ⟨⟨rfl, by decide, rfl, by decide⟩,
   settle_insufficient_balance_reverts wUnfunded 1 wClaim rfl (by decide) rfl
     (by decide)⟩

/-- Claim C6: `canBeSettled` returns true exactly when a claim is stored for
the id with a non-zero claimer and `isResolved` still false, the oracle has
not marked the assertion settled, and the current block timestamp is at or
past the oracle record's expiration timestamp; in particular it is false for
a missing claim or an already-resolved one. -/
theorem canBeSettled_characterization (s : RegistryState) (id : Nat)
    (a : OracleAssertion) (ts : Nat) :
    canBeSettled s id a ts = true ↔
      ((∃ c, lookupClaim s id = some c ∧ c.claimer ≠ 0 ∧ c.isResolved = false) ∧
       a.settled = false ∧ a.expirationTime ≤ ts) := by
  constructor
  · intro h
    by_cases h0 : (readClaim s id).claimer = 0
    · simp [canBeSettled, h0] at h
    · by_cases h1 : (readClaim s id).isResolved = true
      · simp [canBeSettled, h0, h1] at h
      · have h' : a.settled = false ∧ a.expirationTime ≤ ts := by
          simpa [canBeSettled, h0, h1] using h
        refine ⟨⟨readClaim s id, ?_, h0, by simpa using h1⟩, h'.1, h'.2⟩
        cases hl : lookupClaim s id with
        | none => exact absurd (by simp [readClaim, hl, zeroClaim]) h0
        | some c => simp [readClaim, hl]
  · rintro ⟨⟨c, hc, hcl, hres⟩, hsettled, hexp⟩
    have hread : readClaim s id = c := by simp [readClaim, hc]
    simp [canBeSettled, hread, hcl, hres, hsettled, hexp]

/-- Claim C10: `submitClaim` returns the oracle-provided id and stores, at
that key, a record with the caller as claimer, the id in its `assertionId`
field, the supplied handle and text, the constructed assertion bytes, and
both flags false; the write is unconditional, overwriting whatever record
was previously stored at the key (no collision check), since the pre-state
`s` is arbitrary here. -/
theorem submitClaim_stores_record_unconditionally (s : RegistryState)
    (sender ts : Nat) (handle text : String) (nid : Nat) :
    (submitClaim s sender ts handle text nid).2.1 = nid ∧
    lookupClaim (submitClaim s sender ts handle text nid).1 nid =
      some { assertedClaim := mkAssertedClaim handle text ts, claimer := sender,
             twitterHandle := handle, tweetText := text, assertionId := nid,
             isResolved := false, isRewarded := false } := by
  refine ⟨rfl, ?_⟩
  simp [submitClaim, lookupClaim_storeClaim_self]

/-- Claim C9: in the client's `checkClaimStatus`, when the primary
`getClaimDetails` read succeeds but the oracle-record read or the
`canBeSettled` read fails, the handler stores the claim details, forces its
`canSettle` flag to true, and leaves no error message displayed. -/
theorem checkClaimStatus_secondary_failure_optimistic (st : ClientState)
    (d : ClaimDetailsView) :
    (∀ msg settleable,
      (checkClaimStatus st (Except.ok d) (Except.error msg) settleable).claimStatus
          = some d ∧
      (checkClaimStatus st (Except.ok d) (Except.error msg) settleable).canSettle
          = true ∧
      (checkClaimStatus st (Except.ok d) (Except.error msg) settleable).error
          = "") ∧
    (∀ a msg,
      (checkClaimStatus st (Except.ok d) (Except.ok a) (Except.error msg)).claimStatus
          = some d ∧
      (checkClaimStatus st (Except.ok d) (Except.ok a) (Except.error msg)).canSettle
          = true ∧
      (checkClaimStatus st (Except.ok d) (Except.ok a) (Except.error msg)).error
          = "") := by
  exact ⟨fun msg settleable => ⟨rfl, rfl, rfl⟩, fun a msg => ⟨rfl, rfl, rfl⟩⟩

/-- Claim C1: settling an existing, not-yet-rewarded claim with a true oracle
result and a registry balance of at least `REWARD_AMOUNT` succeeds, marks the
stored claim rewarded, decreases the registry balance by exactly
`REWARD_AMOUNT` (the transfer to the stored claimer), and emits a
`RewardPaid` event carrying the stored claimer and exactly `REWARD_AMOUNT`. -/
theorem settle_true_pays_reward (s : RegistryState) (id : Nat) (c : Claim)
    (hc : lookupClaim s id = some c) (hcl : c.claimer ≠ 0)
    (hnr : c.isRewarded = false) (hbal : REWARD_AMOUNT ≤ s.balance) :
    ∃ sNext evs,
      settleAndGetAssertionResult s id true = Except.ok (sNext, true, evs) ∧
      (readClaim sNext id).isRewarded = true ∧
      sNext.balance + REWARD_AMOUNT = s.balance ∧
      Event.RewardPaid id c.claimer REWARD_AMOUNT ∈ evs := by
  have hread : readClaim s id = c := by simp [readClaim, hc]
  have hnl : ¬ ((storeClaim s id { c with isResolved := true }).balance <
      REWARD_AMOUNT) := by
    rw [balance_storeClaim]
    omega
  refine ⟨{ storeClaim (storeClaim s id { c with isResolved := true }) id
              { c with isResolved := true, isRewarded := true } with
            balance := s.balance - REWARD_AMOUNT },
          [Event.ClaimResolved id true,
           Event.RewardPaid id c.claimer REWARD_AMOUNT], ?_, ?_, ?_, ?_⟩
  · simp only [settleAndGetAssertionResult, hread]
    rw [if_neg hcl]
    simp [hnr, hnl, balance_storeClaim]
    exact hbal
  · simp [readClaim, lookupClaim, storeClaim, List.find?_cons]
  · show s.balance - REWARD_AMOUNT + REWARD_AMOUNT = s.balance
    omega
  · simp

theorem settle_true_pays_reward_witness :
    (lookupClaim wFunded 1 = some wClaim ∧ wClaim.claimer ≠ 0 ∧
     wClaim.isRewarded = false ∧ REWARD_AMOUNT ≤ wFunded.balance) ∧
    (∃ sNext evs,
      settleAndGetAssertionResult wFunded 1 true = Except.ok (sNext, true, evs) ∧
      (readClaim sNext 1).isRewarded = true ∧
      sNext.balance + REWARD_AMOUNT = wFunded.balance ∧
      Event.RewardPaid 1 wClaim.claimer REWARD_AMOUNT ∈ evs) :=
  ⟨⟨rfl, by decide, rfl, by decide⟩,
   settle_true_pays_reward wFunded 1 wClaim rfl (by decide) rfl (by decide)⟩

/-- Claim C7: every successful settlement call marks the stored claim
resolved regardless of the oracle's boolean, emits a `ClaimResolved` event
carrying that boolean, and returns it; when the boolean is false the stored
`isRewarded` flag is unchanged, the registry balance is unchanged, and no
`RewardPaid` event is emitted. -/
theorem settle_resolves_unconditionally (s : RegistryState) (id : Nat)
    (r : Bool) (sNext : RegistryState) (b : Bool) (evs : List Event)
    (h : settleAndGetAssertionResult s id r = Except.ok (sNext, b, evs)) :
    b = r ∧ (readClaim sNext id).isResolved = true ∧
    Event.ClaimResolved id r ∈ evs ∧
    (r = false →
      (readClaim sNext id).isRewarded = (readClaim s id).isRewarded ∧
      sNext.balance = s.balance ∧
      ∀ i cl amt, Event.RewardPaid i cl amt ∉ evs) := by
  simp only [settleAndGetAssertionResult] at h
  split at h
  · exact absurd h (by simp)
  · split at h
    · split at h
      · exact absurd h (by simp)
      · rename_i h0 hcond hbal
        simp only [Except.ok.injEq, Prod.mk.injEq] at h
        obtain ⟨h1, h2, h3⟩ := h
        subst h1 h2 h3
        refine ⟨rfl, ?_, by simp, ?_⟩
        · simp [readClaim, lookupClaim, storeClaim, List.find?_cons]
        · intro hr
          subst hr
          simp at hcond
    · rename_i h0 hcond
      simp only [Except.ok.injEq, Prod.mk.injEq] at h
      obtain ⟨h1, h2, h3⟩ := h
      subst h1 h2 h3
      refine ⟨rfl, ?_, by simp, ?_⟩
      · simp [readClaim, lookupClaim, storeClaim, List.find?_cons]
      · intro hr
        refine ⟨?_, balance_storeClaim _ _ _, ?_⟩
        · simp [readClaim, lookupClaim, storeClaim, List.find?_cons]
        · intro i cl amt
          simp

theorem settle_resolves_unconditionally_witness :
    (settleAndGetAssertionResult wFunded 1 false =
       Except.ok ({ claims := [(1, { wClaim with isResolved := true })],
                    balance := REWARD_AMOUNT }, false,
                  [Event.ClaimResolved 1 false])) ∧
    (false = false ∧
     (readClaim { claims := [(1, { wClaim with isResolved := true })],
                  balance := REWARD_AMOUNT } 1).isResolved = true ∧
     Event.ClaimResolved 1 false ∈ [Event.ClaimResolved 1 false] ∧
     (false = false →
       (readClaim { claims := [(1, { wClaim with isResolved := true })],
                    balance := REWARD_AMOUNT } 1).isRewarded =
         (readClaim wFunded 1).isRewarded ∧
       RegistryState.balance { claims := [(1, { wClaim with isResolved := true })],
                               balance := REWARD_AMOUNT } = wFunded.balance ∧
       ∀ i cl amt, Event.RewardPaid i cl amt ∉ [Event.ClaimResolved 1 false])) :=
  ⟨rfl, settle_resolves_unconditionally wFunded 1 false _ false _ rfl⟩

/-- Helper: settling an already-rewarded claim re-stores it with
`isResolved := true` and emits only the resolution event, whatever the
oracle's boolean is. -/
theorem settle_already_rewarded (s : RegistryState) (id : Nat)
    (hcl : (readClaim s id).claimer ≠ 0)
    (hrw : (readClaim s id).isRewarded = true) (r : Bool) :
    settleAndGetAssertionResult s id r =
      Except.ok (storeClaim s id { readClaim s id with isResolved := true }, r,
        [Event.ClaimResolved id r]) := by
  simp [settleAndGetAssertionResult, hcl, hrw]

/-- Claim C2: once a settlement call for an id has paid the reward, a second
settlement call for the same id succeeds without emitting any `RewardPaid`
event and without changing the registry balance, whatever boolean the oracle
reports the second time. -/
theorem settle_never_pays_twice (s s1 : RegistryState) (id : Nat) (b : Bool)
    (evs1 : List Event)
    (h : settleAndGetAssertionResult s id true = Except.ok (s1, b, evs1))
    (hp : ∃ cl amt, Event.RewardPaid id cl amt ∈ evs1) (r : Bool) :
    ∃ s2 evs2,
      settleAndGetAssertionResult s1 id r = Except.ok (s2, r, evs2) ∧
      (∀ i cl amt, Event.RewardPaid i cl amt ∉ evs2) ∧
      s2.balance = s1.balance := by
  simp only [settleAndGetAssertionResult] at h
  split at h
  · exact absurd h (by simp)
  · split at h
    · split at h
      · exact absurd h (by simp)
      · rename_i h0 hcond hbal
        simp only [Except.ok.injEq, Prod.mk.injEq] at h
        obtain ⟨h1, h2, h3⟩ := h
        have hread1 : readClaim s1 id =
            { readClaim s id with isResolved := true, isRewarded := true } := by
          rw [← h1]
          simp [readClaim, lookupClaim, storeClaim, List.find?_cons]
        have hcl1 : (readClaim s1 id).claimer ≠ 0 := by
          rw [hread1]
          simpa using h0
        have hrw1 : (readClaim s1 id).isRewarded = true := by
          rw [hread1]
        refine ⟨storeClaim s1 id { readClaim s1 id with isResolved := true },
                [Event.ClaimResolved id r],
                settle_already_rewarded s1 id hcl1 hrw1 r, ?_,
                balance_storeClaim _ _ _⟩
        intro i cl amt
        simp
    · rename_i h0 hcond
      simp only [Except.ok.injEq, Prod.mk.injEq] at h
      obtain ⟨h1, h2, h3⟩ := h
      obtain ⟨cl, amt, hmem⟩ := hp
      rw [← h3] at hmem
      simp at hmem

/-- The registry state after the reward-paying settlement of `wFunded`. -/
def wSettled : RegistryState :=
  { claims := [(1, { wClaim with isResolved := true, isRewarded := true })],
    balance := 0 }

theorem settle_never_pays_twice_witness :
    (settleAndGetAssertionResult wFunded 1 true =
       Except.ok (wSettled, true,
         [Event.ClaimResolved 1 true, Event.RewardPaid 1 7 REWARD_AMOUNT]) ∧
     (∃ cl amt, Event.RewardPaid 1 cl amt ∈
        [Event.ClaimResolved 1 true, Event.RewardPaid 1 7 REWARD_AMOUNT])) ∧
    (∃ s2 evs2,
      settleAndGetAssertionResult wSettled 1 true = Except.ok (s2, true, evs2) ∧
      (∀ i cl amt, Event.RewardPaid i cl amt ∉ evs2) ∧
      s2.balance = wSettled.balance) :=
  ⟨⟨rfl, ⟨7, REWARD_AMOUNT, by decide⟩⟩,
   settle_never_pays_twice wFunded wSettled 1 true
     [Event.ClaimResolved 1 true, Event.RewardPaid 1 7 REWARD_AMOUNT] rfl
     ⟨7, REWARD_AMOUNT, by decide⟩ true⟩

/-! ### The registry state invariant (claim C8) -/

/-- The spec's state invariant: a claim record is stored for an id exactly
when the claimer read at that id is non-zero, and a rewarded claim is
resolved. -/
def RegistryInv (s : RegistryState) : Prop :=
  ∀ id, ((lookupClaim s id).isSome = true ↔ (readClaim s id).claimer ≠ 0) ∧
        ((readClaim s id).isRewarded = true → (readClaim s id).isResolved = true)

theorem readClaim_storeClaim_self (s : RegistryState) (id : Nat) (c : Claim) :
    readClaim (storeClaim s id c) id = c := by
  simp [readClaim, lookupClaim_storeClaim_self]

theorem RegistryInv_storeClaim (s : RegistryState) (id : Nat) (c : Claim)
    (hs : RegistryInv s) (hcl : c.claimer ≠ 0)
    (hflag : c.isRewarded = true → c.isResolved = true) :
    RegistryInv (storeClaim s id c) := by
  intro k
  by_cases hk : k = id
  · subst hk
    refine ⟨?_, ?_⟩
    · rw [lookupClaim_storeClaim_self, readClaim_storeClaim_self]
      exact iff_of_true rfl hcl
    · rw [readClaim_storeClaim_self]
      exact hflag
  · rw [readClaim, lookupClaim_storeClaim_ne s id k c hk, ← readClaim]
    exact hs k

theorem RegistryInv_setBalance (s : RegistryState) (b : Nat)
    (hs : RegistryInv s) : RegistryInv { s with balance := b } :=
  hs

/-- Claim C8: both state-mutating registry operations preserve the
invariant; `sender ≠ 0` reflects that an EVM `msg.sender` is never the zero
address. -/
theorem registry_operations_preserve_invariant (s : RegistryState)
    (hs : RegistryInv s) (sender ts : Nat) (handle text : String)
    (nid : Nat) (hsender : sender ≠ 0) :
    RegistryInv (submitClaim s sender ts handle text nid).1 ∧
    ∀ id r sNext b evs,
      settleAndGetAssertionResult s id r = Except.ok (sNext, b, evs) →
      RegistryInv sNext := by
  refine ⟨?_, ?_⟩
  · exact RegistryInv_storeClaim s nid _ hs hsender (by simp)
  · intro id r sNext b evs h
    simp only [settleAndGetAssertionResult] at h
    split at h
    · exact absurd h (by simp)
    · split at h
      · split at h
        · exact absurd h (by simp)
        · rename_i h0 hcond hbal
          simp only [Except.ok.injEq, Prod.mk.injEq] at h
          obtain ⟨h1, h2, h3⟩ := h
          subst h1
          apply RegistryInv_setBalance
          apply RegistryInv_storeClaim
          · apply RegistryInv_storeClaim
            · exact hs
            · exact h0
            · intro _
              rfl
          · exact h0
          · intro _
            rfl
      · rename_i h0 hcond
        simp only [Except.ok.injEq, Prod.mk.injEq] at h
        obtain ⟨h1, h2, h3⟩ := h
        subst h1
        apply RegistryInv_storeClaim
        · exact hs
        · exact h0
        · intro _
          rfl

theorem RegistryInv_wEmpty : RegistryInv wEmpty := by
  intro id
  constructor
  · simp [lookupClaim, readClaim, wEmpty, zeroClaim]
  · simp [readClaim, lookupClaim, wEmpty, zeroClaim]

theorem registry_operations_preserve_invariant_witness :
    (RegistryInv wEmpty ∧ (7 : Nat) ≠ 0) ∧
    (RegistryInv (submitClaim wEmpty 7 100 "h" "t" 1).1 ∧
     ∀ id r sNext b evs,
       settleAndGetAssertionResult wEmpty id r = Except.ok (sNext, b, evs) →
       RegistryInv sNext) :=
  ⟨⟨RegistryInv_wEmpty, by decide⟩,
   registry_operations_preserve_invariant wEmpty RegistryInv_wEmpty 7 100 "h"
     "t" 1 (by decide)⟩

/-- Claim C4 counterexample: at handle "drextron", text "hi" and submission
timestamp 1700000000, the byte string stored by `submitClaim` is not the
readable sentence with the timestamp rendered as decimal text inside it: the
code appends the raw 32-byte big-endian ABI encoding of the `uint256`
timestamp instead (`abi.encodePacked` does not stringify numbers). -/
theorem assertedClaim_not_readable_rendering :
    (readClaim (submitClaim { claims := [], balance := 0 } 7 1700000000
        "drextron" "hi" 1).1 1).assertedClaim ≠
      specReadableAssertedClaim "drextron" "hi" 1700000000 := by decide

/-- Claim C4 (amended): the stored `assertedClaim` byte string is the
concatenation of the literal sentence fragments (as UTF-8 bytes) with the
UTF-8 bytes of the handle and of the text and, in the timestamp position,
the 32-byte big-endian ABI encoding of the submission timestamp rather than
a readable decimal rendering. -/
theorem submitClaim_assertedClaim_bytes (s : RegistryState) (sender ts : Nat)
    (handle text : String) (nid : Nat) :
    (readClaim (submitClaim s sender ts handle text nid).1 nid).assertedClaim =
      stringBytes "Twitter user @" ++ stringBytes handle ++
        stringBytes " posted a tweet with the exact text: \x27" ++
        stringBytes text ++ stringBytes "\x27 as of timestamp " ++ be32 ts := by
  simp [submitClaim, readClaim, lookupClaim_storeClaim_self, mkAssertedClaim]
